import Mathlib

/-!
Verification of the bowl-pool settlement engine.

Shallow embedding of the core logic of the repository:
 - `models.py` : data model (`Bowl`, `Participant`, `Pick`, `Settings`) and
   `Bowl.get_winner` (outcome against the spread);
 - `app.py` : `get_current_datetime`, `picks_are_locked`, `calculate_scores`,
   and the three pick-write API handlers `save_pick`, `clear_picks`,
   `randomize_picks`;
 - `score_updater.py` : the ESPN score-sync service (`_normalize_team_name`,
   `_teams_match`, `_find_matching_game`, `_map_espn_status`,
   `_update_bowl_from_espn`, `update_scores`);
 - `migrate_add_round.py` / `migrate_add_round_status.py` : the `round`
   column and `round_status` table added to the database schema by the
   migration scripts (the ORM models and the application code never read
   them).

Modelling conventions: instants (`datetime`) are integers; the `spread`
column (a Python float, in practice a whole- or half-point value, exactly
representable) is a rational; database rows are Lean structures; tables are
lists of rows; the Python string operations used by the sync service are
given executable character-list implementations with the same semantics.
-/

/-- Contest status enum: the `status` column of `bowls` (`models.py` line 39):
not_started, in_progress, final, canceled. -/
inductive Status where
  | not_started
  | in_progress
  | final
  | canceled
deriving DecidableEq, Repr

/-- A pick side: the `picked_team` column of `picks` (`models.py` line 103),
either 'favored' or 'opponent'. -/
inductive Team where
  | favored
  | opponent
deriving DecidableEq, Repr

/-- Result of `Bowl.get_winner`: 'favored', 'opponent' or 'push'
(the Python function returns `None` for an undetermined game, modelled as
`Option Outcome`). -/
inductive Outcome where
  | favored
  | opponent
  | push
deriving DecidableEq, Repr

/-- A row of the `bowls` table (`models.py` lines 28-44).  The `round` column
exists only in the migrated database schema (`migrate_add_round.py` line 30);
it is absent from the ORM model and never read by `app.py`. -/
structure Bowl where
  id : Nat
  name : String
  datetime_utc : Int
  favored_team : String
  opponent : String
  spread : Rat
  favored_team_score : Option Int
  opponent_score : Option Int
  status : Status
  is_ignored : Bool
  round : String
deriving DecidableEq, Repr

/-- A row of the `participants` table (`models.py` lines 70-82). -/
structure Participant where
  id : Nat
  name : String
  nickname : Option String
  email : Option String
  is_admin : Bool
  is_active : Bool
deriving DecidableEq, Repr

/-- A row of the `picks` table (`models.py` lines 97-110); the surrogate
primary key is omitted, rows are identified by (participant_id, bowl_id). -/
structure Pick where
  participant_id : Nat
  bowl_id : Nat
  picked_team : Team
deriving DecidableEq, Repr

/-- A row of the `round_status` table created by
`migrate_add_round_status.py` (lines 28-35). -/
structure RoundStatus where
  round_name : String
  is_locked : Bool
  display_order : Nat
deriving DecidableEq, Repr

/-- `Bowl.get_winner` (`models.py` lines 49-67): outcome against the spread.
`none` models the Python `None` (game not determined). -/
def Bowl.get_winner (b : Bowl) : Option Outcome :=
  if b.status = Status.canceled ∨ b.is_ignored = true then some Outcome.push
  else
    match b.favored_team_score, b.opponent_score with
    | some fs, some os =>
      if b.status ≠ Status.final then none
      else
        let favored_adjusted : Rat := (fs : Rat) + b.spread
        if favored_adjusted > (os : Rat) then some Outcome.favored
        else if favored_adjusted < (os : Rat) then some Outcome.opponent
        else some Outcome.push
    | _, _ => none

/-- C2: the outcome resolver.  Push when ignored or canceled regardless of
scores; Undetermined (`none`) when the status is not final or a score is
absent; otherwise compare `favoredScore + spread` with `opponentScore`. -/
theorem get_winner_spec (b : Bowl) :
    (b.is_ignored = true ∨ b.status = Status.canceled → b.get_winner = some Outcome.push)
    ∧ (b.is_ignored = false → b.status ≠ Status.canceled →
        b.status ≠ Status.final ∨ b.favored_team_score = none ∨ b.opponent_score = none →
        b.get_winner = none)
    ∧ (∀ f o : Int, b.is_ignored = false → b.status = Status.final →
        b.favored_team_score = some f → b.opponent_score = some o →
        b.get_winner =
          (if (f : Rat) + b.spread > (o : Rat) then some Outcome.favored
           else if (f : Rat) + b.spread < (o : Rat) then some Outcome.opponent
           else some Outcome.push)) := by
  refine ⟨?_, ?_, ?_⟩
  · intro h
    have : b.status = Status.canceled ∨ b.is_ignored = true := h.symm
    simp [Bowl.get_winner, this]
  · intro hig hcan hund
    have hcond : ¬ (b.status = Status.canceled ∨ b.is_ignored = true) := by
      simp [hcan, hig]
    rw [Bowl.get_winner, if_neg hcond]
    rcases hund with hst | hf | ho
    · cases hfs : b.favored_team_score <;> cases hos : b.opponent_score <;> simp [hst]
    · rw [hf]
    · rw [ho]
      cases b.favored_team_score <;> simp
  · intro f o hig hfin hf ho
    have hcond : ¬ (b.status = Status.canceled ∨ b.is_ignored = true) := by
      simp [hfin, hig]
    rw [Bowl.get_winner, if_neg hcond, hf, ho]
    simp [hfin]

/-- Example bowl for the C2 witness: spread -3.5, final 24-20 (a cover by the
favored side, the worked example from the specification). -/
def exBowlC2 : Bowl :=
  { id := 1, name := "Example Bowl", datetime_utc := 100,
    favored_team := "Ohio State", opponent := "Michigan",
    spread := -7/2, favored_team_score := some 24, opponent_score := some 20,
    status := Status.final, is_ignored := false, round := "first_round" }

theorem get_winner_spec_witness : exBowlC2.get_winner = some Outcome.favored := by
  have h := (get_winner_spec exBowlC2).2.2 24 20 rfl rfl rfl rfl
  rw [h]
  norm_num [exBowlC2]

/-- The pick a given participant holds on a given bowl (`app.py` lines
145-146: `pick_dict = {pick.participant_id: pick.picked_team for pick in
picks_for_bowl}`, then `pick_dict.get(participant.id)`).  A dict
comprehension keeps the last entry per key, hence `getLast?`. -/
def pickFor (picks : List Pick) (bid pid : Nat) : Option Team :=
  (List.getLast? (picks.filter
    (fun p => p.bowl_id == bid && p.participant_id == pid))).map Pick.picked_team

/-- The comparison `picked == winner` of `app.py` line 153 (string equality
between a pick side and a resolved outcome). -/
def pickMatches (t : Team) (w : Outcome) : Bool :=
  match t, w with
  | Team.favored, Outcome.favored => true
  | Team.opponent, Outcome.opponent => true
  | _, _ => false

/-- Test for `picked == winner` (`app.py` line 153): the participant has a
pick on this bowl and it equals the resolved outcome. -/
def isWinnerPick (picks : List Pick) (bid : Nat) (w : Outcome) (p : Participant) : Bool :=
  match pickFor picks bid p.id with
  | some t => pickMatches t w
  | none => false

/-- Test for the `elif picked:` branch of `app.py` line 155: the participant
has a pick on this bowl and it differs from the resolved outcome. -/
def isLoserPick (picks : List Pick) (bid : Nat) (w : Outcome) (p : Participant) : Bool :=
  match pickFor picks bid p.id with
  | some t => !(pickMatches t w)
  | none => false

/-- The `winners` id list built by the loop of `app.py` lines 149-157. -/
def winnersFor (participants : List Participant) (picks : List Pick)
    (bowl : Bowl) (w : Outcome) : List Nat :=
  (participants.filter (isWinnerPick picks bowl.id w)).map Participant.id

/-- The `losers` id list built by the loop of `app.py` lines 149-157. -/
def losersFor (participants : List Participant) (picks : List Pick)
    (bowl : Bowl) (w : Outcome) : List Nat :=
  (participants.filter (isLoserPick picks bowl.id w)).map Participant.id

/-- A single contest's score for one active participant, as assigned by the
per-bowl body of `calculate_scores` (`app.py` lines 130-173): 0 when the
winner is undetermined or a push; otherwise `num_losers` for a winner,
`-num_winners` for a loser, 0 for a participant with no pick. -/
def bowlScore (participants : List Participant) (picks : List Pick)
    (bowl : Bowl) (pid : Nat) : Int :=
  match bowl.get_winner with
  | none => 0
  | some Outcome.push => 0
  | some w =>
    let winners := winnersFor participants picks bowl w
    let losers := losersFor participants picks bowl w
    if winners.contains pid then (losers.length : Int)
    else if losers.contains pid then -(winners.length : Int)
    else 0

/-- A participant's `'total'` entry in `calculate_scores` (`app.py` lines
128, 167, 171): the sum of the per-bowl scores. -/
def totalScore (participants : List Participant) (picks : List Pick)
    (bowls : List Bowl) (pid : Nat) : Int :=
  (bowls.map (fun b => bowlScore participants picks b pid)).sum

lemma mem_winnersFor_iff {participants : List Participant} {picks : List Pick}
    {bowl : Bowl} {w : Outcome} {p : Participant}
    (hnd : (participants.map Participant.id).Nodup) (hp : p ∈ participants) :
    p.id ∈ winnersFor participants picks bowl w ↔ isWinnerPick picks bowl.id w p = true := by
  constructor
  · intro hm
    rcases List.mem_map.mp hm with ⟨q, hq, hqid⟩
    have hqmem := (List.mem_filter.mp hq).1
    have hqf := (List.mem_filter.mp hq).2
    have hqp : q = p := List.inj_on_of_nodup_map hnd hqmem hp hqid
    rwa [hqp] at hqf
  · intro hf
    exact List.mem_map.mpr ⟨p, List.mem_filter.mpr ⟨hp, hf⟩, rfl⟩

lemma mem_losersFor_iff {participants : List Participant} {picks : List Pick}
    {bowl : Bowl} {w : Outcome} {p : Participant}
    (hnd : (participants.map Participant.id).Nodup) (hp : p ∈ participants) :
    p.id ∈ losersFor participants picks bowl w ↔ isLoserPick picks bowl.id w p = true := by
  constructor
  · intro hm
    rcases List.mem_map.mp hm with ⟨q, hq, hqid⟩
    have hqmem := (List.mem_filter.mp hq).1
    have hqf := (List.mem_filter.mp hq).2
    have hqp : q = p := List.inj_on_of_nodup_map hnd hqmem hp hqid
    rwa [hqp] at hqf
  · intro hf
    exact List.mem_map.mpr ⟨p, List.mem_filter.mpr ⟨hp, hf⟩, rfl⟩

lemma winnerPick_not_loserPick {picks : List Pick} {bid : Nat} {w : Outcome}
    {p : Participant} (h : isWinnerPick picks bid w p = true) :
    isLoserPick picks bid w p = false := by
  unfold isWinnerPick at h
  unfold isLoserPick
  cases hpk : pickFor picks bid p.id with
  | none => rfl
  | some t =>
    rw [hpk] at h
    have h' : pickMatches t w = true := h
    simp [h']

/-- On a decided (favored/opponent) contest, the score of a member of the
active-participant list is determined by their own pick. -/
lemma bowlScore_eq_ite {participants : List Participant} {picks : List Pick}
    {bowl : Bowl} {w : Outcome} {p : Participant}
    (hw : bowl.get_winner = some w) (hwne : w ≠ Outcome.push)
    (hnd : (participants.map Participant.id).Nodup) (hp : p ∈ participants) :
    bowlScore participants picks bowl p.id =
      if isWinnerPick picks bowl.id w p then
        ((losersFor participants picks bowl w).length : Int)
      else if isLoserPick picks bowl.id w p then
        -((winnersFor participants picks bowl w).length : Int)
      else 0 := by
  have hcw : (winnersFor participants picks bowl w).contains p.id
      = isWinnerPick picks bowl.id w p := by
    cases hb : isWinnerPick picks bowl.id w p
    · simp only [List.contains, List.elem_eq_mem, decide_eq_false_iff_not]
      intro hmem
      rw [(mem_winnersFor_iff hnd hp).mp hmem] at hb
      exact Bool.noConfusion hb
    · simp only [List.contains, List.elem_eq_mem, decide_eq_true_eq]
      exact (mem_winnersFor_iff hnd hp).mpr hb
  have hcl : (losersFor participants picks bowl w).contains p.id
      = isLoserPick picks bowl.id w p := by
    cases hb : isLoserPick picks bowl.id w p
    · simp only [List.contains, List.elem_eq_mem, decide_eq_false_iff_not]
      intro hmem
      rw [(mem_losersFor_iff hnd hp).mp hmem] at hb
      exact Bool.noConfusion hb
    · simp only [List.contains, List.elem_eq_mem, decide_eq_true_eq]
      exact (mem_losersFor_iff hnd hp).mpr hb
  unfold bowlScore
  rw [hw]
  cases w with
  | push => exact absurd rfl hwne
  | favored => simp only [hcw, hcl]
  | opponent => simp only [hcw, hcl]

/-- Sum of a two-way indicator over a list, for mutually exclusive tests. -/
lemma sum_map_ite_two {α : Type} (l : List α) (f g : α → Bool) (x y : Int)
    (hex : ∀ a ∈ l, f a = true → g a = false) :
    (l.map (fun a => if f a then x else if g a then y else 0)).sum
      = x * ((l.filter f).length : Int) + y * ((l.filter g).length : Int) := by
  induction l with
  | nil => simp
  | cons a l ih =>
    have hex' : ∀ b ∈ l, f b = true → g b = false :=
      fun b hb => hex b (List.mem_cons_of_mem _ hb)
    rw [List.map_cons, List.sum_cons, ih hex']
    cases hfa : f a
    · cases hga : g a
      · simp [List.filter_cons, hfa, hga]
      · simp [List.filter_cons, hfa, hga]
        ring
    · have hga : g a = false := hex a (List.mem_cons_self a l) hfa
      simp [List.filter_cons, hfa, hga]
      ring

/-- C1: on a contest resolved as Favored or Opponent, `calculate_scores`
gives each winner `|losers|`, each loser `-|winners|`, 0 to a participant
with no pick, and the contest's scores over the active participants sum to
zero (`app.py` lines 130-173). -/
theorem calculate_scores_contest (participants : List Participant)
    (picks : List Pick) (bowl : Bowl) (w : Outcome)
    (hw : bowl.get_winner = some w) (hwne : w ≠ Outcome.push)
    (hnd : (participants.map Participant.id).Nodup) :
    (∀ p ∈ participants,
      (isWinnerPick picks bowl.id w p = true →
        bowlScore participants picks bowl p.id
          = ((losersFor participants picks bowl w).length : Int))
      ∧ (isLoserPick picks bowl.id w p = true →
        bowlScore participants picks bowl p.id
          = -((winnersFor participants picks bowl w).length : Int))
      ∧ (pickFor picks bowl.id p.id = none →
        bowlScore participants picks bowl p.id = 0))
    ∧ (participants.map (fun p => bowlScore participants picks bowl p.id)).sum = 0 := by
  constructor
  · intro p hp
    refine ⟨?_, ?_, ?_⟩
    · intro hwin
      rw [bowlScore_eq_ite hw hwne hnd hp, if_pos hwin]
    · intro hlose
      have hnw : isWinnerPick picks bowl.id w p = false := by
        cases hb : isWinnerPick picks bowl.id w p
        · rfl
        · rw [winnerPick_not_loserPick hb] at hlose
          exact Bool.noConfusion hlose
      rw [bowlScore_eq_ite hw hwne hnd hp, if_neg (by simp [hnw]), if_pos hlose]
    · intro hnone
      have h1 : isWinnerPick picks bowl.id w p = false := by
        unfold isWinnerPick; rw [hnone]
      have h2 : isLoserPick picks bowl.id w p = false := by
        unfold isLoserPick; rw [hnone]
      rw [bowlScore_eq_ite hw hwne hnd hp, if_neg (by simp [h1]), if_neg (by simp [h2])]
  · have hmapeq : participants.map (fun p => bowlScore participants picks bowl p.id)
        = participants.map (fun p =>
            if isWinnerPick picks bowl.id w p then
              ((losersFor participants picks bowl w).length : Int)
            else if isLoserPick picks bowl.id w p then
              -((winnersFor participants picks bowl w).length : Int)
            else 0) :=
      List.map_congr_left (fun p hp => bowlScore_eq_ite hw hwne hnd hp)
    rw [hmapeq, sum_map_ite_two _ _ _ _ _
      (fun p _ h => winnerPick_not_loserPick h)]
    have hwlen : ((participants.filter (isWinnerPick picks bowl.id w)).length : Int)
        = ((winnersFor participants picks bowl w).length : Int) := by
      unfold winnersFor
      rw [List.length_map]
    have hllen : ((participants.filter (isLoserPick picks bowl.id w)).length : Int)
        = ((losersFor participants picks bowl w).length : Int) := by
      unfold losersFor
      rw [List.length_map]
    rw [hwlen, hllen]
    ring

/-- Three active participants for concrete scoring instances. -/
def exParts : List Participant :=
  [{ id := 1, name := "Alice", nickname := none, email := none,
     is_admin := false, is_active := true },
   { id := 2, name := "Bob", nickname := none, email := none,
     is_admin := false, is_active := true },
   { id := 3, name := "Carol", nickname := none, email := none,
     is_admin := false, is_active := true }]

/-- Picks for the scoring instance: Alice picked the favored side, Bob the
opponent, Carol has no pick. -/
def exPicks : List Pick :=
  [{ participant_id := 1, bowl_id := 1, picked_team := Team.favored },
   { participant_id := 2, bowl_id := 1, picked_team := Team.opponent }]

theorem calculate_scores_contest_witness :
    (exParts.map (fun p => bowlScore exParts exPicks exBowlC2 p.id)).sum = 0 := by
  have hw : exBowlC2.get_winner = some Outcome.favored := by
    simp only [Bowl.get_winner, exBowlC2]
    norm_num
    exact fun h => absurd h (by decide)
  exact (calculate_scores_contest exParts exPicks exBowlC2 Outcome.favored hw
    (by decide) (by decide)).2

/-- `get_current_datetime` (`app.py` lines 72-77): the single clock source.
Returns the `Settings.override_datetime` instant when one is set, otherwise
the wall-clock instant (passed in as `wall`). -/
def get_current_datetime (override_dt : Option Int) (wall : Int) : Int :=
  match override_dt with
  | some t => t
  | none => wall

/-- The result of `Bowl.query.order_by(Bowl.datetime_utc).first()`
(`app.py` line 112): a bowl with the minimal kickoff instant, `none` on an
empty table. -/
def firstBowl : List Bowl → Option Bowl
  | [] => none
  | b :: rest =>
    match firstBowl rest with
    | none => some b
    | some m => if m.datetime_utc < b.datetime_utc then some m else some b

/-- `picks_are_locked` (`app.py` lines 110-115): locked once the current
instant (from the clock source) reaches the earliest kickoff; `False` when
there are no bowls. -/
def picks_are_locked (bowls : List Bowl) (override_dt : Option Int) (wall : Int) : Bool :=
  match firstBowl bowls with
  | some first => decide (get_current_datetime override_dt wall ≥ first.datetime_utc)
  | none => false

lemma firstBowl_eq_none {bowls : List Bowl} :
    firstBowl bowls = none ↔ bowls = [] := by
  cases bowls with
  | nil => simp [firstBowl]
  | cons a rest =>
    rw [firstBowl]
    constructor
    · intro h
      cases hm : firstBowl rest with
      | none => rw [hm] at h; dsimp only at h; exact absurd h (by simp)
      | some m =>
        rw [hm] at h
        dsimp only at h
        by_cases hlt : m.datetime_utc < a.datetime_utc
        · rw [if_pos hlt] at h; exact absurd h (by simp)
        · rw [if_neg hlt] at h; exact absurd h (by simp)
    · intro h; exact absurd h (by simp)

lemma firstBowl_mem {bowls : List Bowl} {b : Bowl} (h : firstBowl bowls = some b) :
    b ∈ bowls := by
  induction bowls with
  | nil => simp [firstBowl] at h
  | cons a rest ih =>
    rw [firstBowl] at h
    cases hm : firstBowl rest with
    | none =>
      rw [hm] at h
      dsimp only at h
      cases h
      exact List.mem_cons_self _ _
    | some m =>
      rw [hm] at h
      dsimp only at h
      by_cases hlt : m.datetime_utc < a.datetime_utc
      · rw [if_pos hlt] at h
        cases h
        exact List.mem_cons_of_mem a (ih hm)
      · rw [if_neg hlt] at h
        cases h
        exact List.mem_cons_self _ _

lemma firstBowl_min {bowls : List Bowl} :
    ∀ {b : Bowl}, firstBowl bowls = some b →
      ∀ c ∈ bowls, b.datetime_utc ≤ c.datetime_utc := by
  induction bowls with
  | nil => intro b h _ _; simp [firstBowl] at h
  | cons a rest ih =>
    intro b h c hc
    rw [firstBowl] at h
    cases hm : firstBowl rest with
    | none =>
      rw [hm] at h
      dsimp only at h
      cases h
      have hrest : rest = [] := firstBowl_eq_none.mp hm
      rcases List.mem_cons.mp hc with hca | hcr
      · rw [hca]
      · rw [hrest] at hcr
        exact absurd hcr (List.not_mem_nil c)
    | some m =>
      rw [hm] at h
      dsimp only at h
      by_cases hlt : m.datetime_utc < a.datetime_utc
      · rw [if_pos hlt] at h
        cases h
        rcases List.mem_cons.mp hc with hca | hcr
        · rw [hca]; exact le_of_lt hlt
        · exact ih hm c hcr
      · rw [if_neg hlt] at h
        cases h
        rcases List.mem_cons.mp hc with hca | hcr
        · rw [hca]
        · exact le_trans (le_of_not_lt hlt) (ih hm c hcr)

/-- C3: the lock predicate is true exactly when `now()` is at or after the
earliest kickoff among all contests, where `now()` is the override instant
when one is set and the wall clock otherwise; the substitution is
transparent to the lock predicate (its value does not depend on the wall
clock while an override is set). -/
theorem picks_are_locked_spec (bowls : List Bowl) (override_dt : Option Int) (wall : Int) :
    (picks_are_locked bowls override_dt wall = true ↔
      ∃ b ∈ bowls, (∀ c ∈ bowls, b.datetime_utc ≤ c.datetime_utc)
        ∧ get_current_datetime override_dt wall ≥ b.datetime_utc)
    ∧ (∀ t : Int, override_dt = some t → get_current_datetime override_dt wall = t)
    ∧ (override_dt = none → get_current_datetime override_dt wall = wall)
    ∧ (∀ t wall' : Int, override_dt = some t →
        picks_are_locked bowls override_dt wall = picks_are_locked bowls override_dt wall') := by
  refine ⟨?_, ?_, ?_, ?_⟩
  · constructor
    · intro h
      unfold picks_are_locked at h
      cases hm : firstBowl bowls with
      | none => rw [hm] at h; exact absurd h (by simp)
      | some m =>
        rw [hm] at h
        exact ⟨m, firstBowl_mem hm, firstBowl_min hm, of_decide_eq_true h⟩
    · rintro ⟨b, hb, hmin, hnow⟩
      unfold picks_are_locked
      cases hm : firstBowl bowls with
      | none =>
        rw [firstBowl_eq_none] at hm
        rw [hm] at hb
        exact absurd hb (List.not_mem_nil b)
      | some m =>
        have h1 : m.datetime_utc ≤ b.datetime_utc := firstBowl_min hm b hb
        exact decide_eq_true (le_trans h1 hnow)
  · intro t ht
    rw [ht]; rfl
  · intro ht
    rw [ht]; rfl
  · intro t wall' ht
    rw [ht]
    rfl

/-- A bowl that kicks off at instant 100 (integer spread, so that concrete
states evaluate inside `decide`). -/
def exBowlA : Bowl :=
  { id := 1, name := "Alpha Bowl", datetime_utc := 100,
    favored_team := "Ohio State", opponent := "Michigan",
    spread := -3, favored_team_score := none, opponent_score := none,
    status := Status.not_started, is_ignored := false, round := "first_round" }

/-- A bowl that kicks off at instant 200. -/
def exBowlB : Bowl :=
  { id := 2, name := "Beta Bowl", datetime_utc := 200,
    favored_team := "Georgia", opponent := "Texas",
    spread := 2, favored_team_score := none, opponent_score := none,
    status := Status.not_started, is_ignored := false, round := "first_round" }

theorem picks_are_locked_spec_witness :
    picks_are_locked [exBowlB, exBowlA] (some 150) 0 = true
      ∧ get_current_datetime (some 150) 0 = 150 := by
  have h := picks_are_locked_spec [exBowlB, exBowlA] (some 150) 0
  refine ⟨h.1.mpr ⟨exBowlA, by decide, by decide, by decide⟩, h.2.1 150 rfl⟩

lemma picks_are_locked_nil (override_dt : Option Int) (wall : Int) :
    picks_are_locked [] override_dt wall = false := rfl

/-- The persisted state read and written by the pick-write request handlers:
the `bowls`, `participants`, `picks` and `round_status` tables and the
`Settings.override_datetime` column. -/
structure PoolState where
  bowls : List Bowl
  participants : List Participant
  picks : List Pick
  round_status : List RoundStatus
  override_datetime : Option Int
deriving DecidableEq, Repr

/-- Outcome of a pick-write API request: HTTP 200, or the 400 'Picks are
locked' / 400 'Invalid data' / 404 'Bowl game not found' error responses of
`app.py` lines 289-302. -/
inductive ApiResult where
  | ok
  | locked
  | invalid
  | notFound
deriving DecidableEq, Repr

/-- `existing_pick.picked_team = picked_team` (`app.py` lines 305-311):
update the first pick row matching the (participant, bowl) key, as
`Pick.query.filter_by(...).first()` does. -/
def updatePickTeam : List Pick → Nat → Nat → Team → List Pick
  | [], _, _, _ => []
  | p :: rest, pid, bid, team =>
    if p.participant_id == pid && p.bowl_id == bid then
      { p with picked_team := team } :: rest
    else p :: updatePickTeam rest pid bid team

/-- Set the logged-in participant's `is_active` column. -/
def setActive (participants : List Participant) (pid : Nat) (active : Bool) :
    List Participant :=
  participants.map (fun q => if q.id == pid then { q with is_active := active } else q)

/-- `save_pick` (`app.py` lines 282-338): reject when locked; validate the
payload; 404 when the bowl does not exist; update or create the pick; set
`is_active` to whether the participant's pick count now equals the bowl
count.  `pid` is the logged-in participant; `wall` is the wall-clock
instant. -/
def save_pick (st : PoolState) (wall : Int) (pid : Nat)
    (bowl_id? : Option Nat) (picked_team? : Option Team) : PoolState × ApiResult :=
  if picks_are_locked st.bowls st.override_datetime wall then (st, ApiResult.locked)
  else
    match bowl_id?, picked_team? with
    | some bowl_id, some picked_team =>
      if st.bowls.any (fun b => b.id == bowl_id) then
        let picks' :=
          if st.picks.any (fun p => p.participant_id == pid && p.bowl_id == bowl_id)
          then updatePickTeam st.picks pid bowl_id picked_team
          else st.picks ++ [{ participant_id := pid, bowl_id := bowl_id,
                              picked_team := picked_team }]
        let total_bowls := st.bowls.length
        let total_picks := (picks'.filter (fun p => p.participant_id == pid)).length
        ({ st with picks := picks',
                   participants := setActive st.participants pid
                     (total_picks == total_bowls) }, ApiResult.ok)
      else (st, ApiResult.notFound)
    | _, _ => (st, ApiResult.invalid)

/-- `clear_picks` (`app.py` lines 341-359): reject when locked; delete all
of the participant's picks; set `is_active` to false. -/
def clear_picks (st : PoolState) (wall : Int) (pid : Nat) : PoolState × ApiResult :=
  if picks_are_locked st.bowls st.override_datetime wall then (st, ApiResult.locked)
  else
    ({ st with picks := st.picks.filter (fun p => !(p.participant_id == pid)),
               participants := setActive st.participants pid false }, ApiResult.ok)

/-- `randomize_picks` (`app.py` lines 362-399): reject when locked; create a
random pick for every bowl the participant has no pick on; set `is_active`
to true.  `choice` supplies the `random.choice(['favored', 'opponent'])`
draw for each bowl id. -/
def randomize_picks (st : PoolState) (wall : Int) (pid : Nat)
    (choice : Nat → Team) : PoolState × ApiResult :=
  if picks_are_locked st.bowls st.override_datetime wall then (st, ApiResult.locked)
  else
    let newPicks :=
      (st.bowls.filter (fun b =>
        !(st.picks.any (fun p => p.participant_id == pid && p.bowl_id == b.id)))).map
        (fun b => { participant_id := pid, bowl_id := b.id,
                    picked_team := choice b.id : Pick })
    ({ st with picks := st.picks ++ newPicks,
               participants := setActive st.participants pid true }, ApiResult.ok)

/-- C4: while the lock predicate holds, each of the three pick-write
operations is rejected with the locked error and leaves the state (picks
and active flags included) unchanged. -/
theorem pick_writes_rejected_when_locked (st : PoolState) (wall : Int)
    (pid : Nat) (bowl_id? : Option Nat) (picked_team? : Option Team)
    (choice : Nat → Team)
    (h : picks_are_locked st.bowls st.override_datetime wall = true) :
    save_pick st wall pid bowl_id? picked_team? = (st, ApiResult.locked)
    ∧ clear_picks st wall pid = (st, ApiResult.locked)
    ∧ randomize_picks st wall pid choice = (st, ApiResult.locked) := by
  refine ⟨?_, ?_, ?_⟩
  · cases bowl_id? <;> cases picked_team? <;> simp [save_pick, h]
  · rw [clear_picks, if_pos h]
  · rw [randomize_picks, if_pos h]

/-- A state that is already locked: one bowl kicking off at instant 100,
clock override unset, queried at wall-clock instant 150. -/
def exStLocked : PoolState :=
  { bowls := [exBowlA], participants := exParts, picks := exPicks,
    round_status := [], override_datetime := none }

theorem pick_writes_rejected_when_locked_witness :
    save_pick exStLocked 150 1 (some 1) (some Team.favored)
      = (exStLocked, ApiResult.locked)
    ∧ clear_picks exStLocked 150 1 = (exStLocked, ApiResult.locked)
    ∧ randomize_picks exStLocked 150 1 (fun _ => Team.favored)
      = (exStLocked, ApiResult.locked) :=
  pick_writes_rejected_when_locked exStLocked 150 1 (some 1) (some Team.favored)
    (fun _ => Team.favored) (by decide)

/-- C10: on an empty contest store the lock predicate is false for every
wall-clock instant and every override, and no pick write is ever rejected
as locked. -/
theorem empty_pool_never_locked (participants : List Participant)
    (picks : List Pick) (rs : List RoundStatus) (override_dt : Option Int)
    (wall : Int) (pid : Nat) (bowl_id? : Option Nat) (picked_team? : Option Team)
    (choice : Nat → Team) :
    picks_are_locked [] override_dt wall = false
    ∧ (save_pick ⟨[], participants, picks, rs, override_dt⟩ wall pid
        bowl_id? picked_team?).2 ≠ ApiResult.locked
    ∧ (clear_picks ⟨[], participants, picks, rs, override_dt⟩ wall pid).2
        ≠ ApiResult.locked
    ∧ (randomize_picks ⟨[], participants, picks, rs, override_dt⟩ wall pid
        choice).2 ≠ ApiResult.locked := by
  refine ⟨rfl, ?_, ?_, ?_⟩
  · cases bowl_id? <;> cases picked_team? <;>
      simp [save_pick, picks_are_locked_nil]
  · simp [clear_picks, picks_are_locked_nil]
  · simp [randomize_picks, picks_are_locked_nil]

/-- A state whose `round_status` table marks round `first_round` as locked,
with one (first_round) bowl kicking off at instant 100, queried at
wall-clock instant 50 (before kickoff), no clock override. -/
def exStRoundLocked : PoolState :=
  { bowls := [exBowlA], participants := exParts, picks := [],
    round_status := [{ round_name := "first_round", is_locked := true,
                       display_order := 1 }],
    override_datetime := none }

/-- C5 counterexample: the round of the only bowl is marked locked in
`round_status`, yet the lock predicate is false and a pick write for that
bowl succeeds and changes the pick state — the per-round lock flag is not an
input to the lock decision on any write path. -/
theorem round_lock_ignored_cex :
    (exStRoundLocked.round_status.any
      (fun r => r.round_name == "first_round" && r.is_locked)) = true
    ∧ (exStRoundLocked.bowls.all (fun b => b.round == "first_round")) = true
    ∧ picks_are_locked exStRoundLocked.bowls exStRoundLocked.override_datetime 50 = false
    ∧ (save_pick exStRoundLocked 50 1 (some 1) (some Team.favored)).2 = ApiResult.ok
    ∧ (save_pick exStRoundLocked 50 1 (some 1) (some Team.favored)).1.picks
        ≠ exStRoundLocked.picks := by
  exact ⟨rfl, by decide, rfl, by decide, by decide⟩

/-- C5 amended: the `round_status` lock flag is not an input to the lock
decision; every one of the three pick-write paths rejects as locked exactly
when the global kickoff lock holds, whatever the `round_status` table
contains. -/
theorem lock_rule_uniform_ignores_round_status (st : PoolState)
    (rs' : List RoundStatus) (wall : Int) (pid : Nat) (bowl_id? : Option Nat)
    (picked_team? : Option Team) (choice : Nat → Team) :
    ((save_pick { st with round_status := rs' } wall pid bowl_id? picked_team?).2
        = ApiResult.locked
      ↔ picks_are_locked st.bowls st.override_datetime wall = true)
    ∧ ((clear_picks { st with round_status := rs' } wall pid).2 = ApiResult.locked
      ↔ picks_are_locked st.bowls st.override_datetime wall = true)
    ∧ ((randomize_picks { st with round_status := rs' } wall pid choice).2
        = ApiResult.locked
      ↔ picks_are_locked st.bowls st.override_datetime wall = true) := by
  cases hl : picks_are_locked st.bowls st.override_datetime wall
  · refine ⟨?_, ?_, ?_⟩
    · cases bowl_id? <;> cases picked_team? <;> simp [save_pick, hl]
      split <;> simp
    · simp [clear_picks, hl]
    · simp [randomize_picks, hl]
  · refine ⟨?_, ?_, ?_⟩
    · cases bowl_id? <;> cases picked_team? <;> simp [save_pick, hl]
    · simp [clear_picks, hl]
    · simp [randomize_picks, hl]

/-- Key of the uniqueness constraint on `picks` (`models.py` line 110). -/
def pairKey (p : Pick) : Nat × Nat := (p.participant_id, p.bowl_id)

/-- The participant holds a pick for every contest in the store. -/
def coversAll (st : PoolState) (pid : Nat) : Bool :=
  st.bowls.all (fun b =>
    st.picks.any (fun p => p.participant_id == pid && p.bowl_id == b.id))

/-- Database well-formedness: primary-key uniqueness on bowls, the
uniqueness constraint on (participant_id, bowl_id), and the foreign key
from picks to bowls (enforced with cascade delete by the storage layer). -/
structure WF (st : PoolState) : Prop where
  bowls_nodup : (st.bowls.map Bowl.id).Nodup
  picks_nodup : (st.picks.map pairKey).Nodup
  picks_valid : ∀ p ∈ st.picks, st.bowls.any (fun b => b.id == p.bowl_id) = true

lemma setActive_is_active {participants : List Participant} {pid : Nat}
    {active : Bool} :
    ∀ q ∈ setActive participants pid active, q.id = pid → q.is_active = active := by
  intro q hq hid
  rcases List.mem_map.mp hq with ⟨q0, hq0, hq0eq⟩
  by_cases h0 : q0.id == pid
  · rw [if_pos h0] at hq0eq
    rw [← hq0eq]
  · rw [if_neg h0] at hq0eq
    rw [← hq0eq] at hid
    exact absurd (beq_iff_eq.mpr hid) h0

lemma nodup_subset_length_iff {l₁ l₂ : List Nat}
    (h₁ : l₁.Nodup) (h₂ : l₂.Nodup) (hsub : l₁ ⊆ l₂) :
    l₁.length = l₂.length ↔ ∀ x ∈ l₂, x ∈ l₁ := by
  constructor
  · intro hlen x hx
    have hsp : List.Subperm l₁ l₂ := List.subperm_of_subset h₁ hsub
    have hperm : l₁.Perm l₂ := hsp.perm_of_length_le (le_of_eq hlen.symm)
    exact hperm.mem_iff.mpr hx
  · intro hall
    have hsp : List.Subperm l₁ l₂ := List.subperm_of_subset h₁ hsub
    have hsp' : List.Subperm l₂ l₁ := List.subperm_of_subset h₂ (fun x hx => hall x hx)
    exact le_antisymm hsp.length_le hsp'.length_le

lemma updatePickTeam_map_pairKey (l : List Pick) (pid bid : Nat) (tm : Team) :
    (updatePickTeam l pid bid tm).map pairKey = l.map pairKey := by
  induction l with
  | nil => rfl
  | cons p rest ih =>
    rw [updatePickTeam]
    by_cases hp : p.participant_id == pid && p.bowl_id == bid
    · rw [if_pos hp]
      simp [pairKey]
    · rw [if_neg hp]
      simp only [List.map_cons, ih]

lemma mem_updatePickTeam_pairKey {l : List Pick} {pid bid : Nat} {tm : Team}
    {p : Pick} (h : p ∈ updatePickTeam l pid bid tm) :
    pairKey p ∈ l.map pairKey := by
  have : pairKey p ∈ (updatePickTeam l pid bid tm).map pairKey :=
    List.mem_map.mpr ⟨p, h, rfl⟩
  rwa [updatePickTeam_map_pairKey] at this

/-- Under the database constraints, the pick-count comparison of `app.py`
line 326 (`total_picks == total_bowls`) is equivalent to the participant
holding a pick for every bowl. -/
lemma count_eq_iff_covers {bowls : List Bowl} {picks : List Pick} {pid : Nat}
    (hbn : (bowls.map Bowl.id).Nodup)
    (hpn : (picks.map pairKey).Nodup)
    (hpv : ∀ p ∈ picks, bowls.any (fun b => b.id == p.bowl_id) = true) :
    (((picks.filter (fun p => p.participant_id == pid)).length == bowls.length) = true
      ↔ bowls.all (fun b => picks.any
          (fun p => p.participant_id == pid && p.bowl_id == b.id)) = true) := by
  set my := picks.filter (fun p => p.participant_id == pid) with hmy
  have hmysub : my.Sublist picks := List.filter_sublist picks
  have hmypid : ∀ p ∈ my, p.participant_id = pid := by
    intro p hp
    have := (List.mem_filter.mp (hmy ▸ hp)).2
    exact beq_iff_eq.mp this
  have hpairs : (my.map pairKey).Nodup :=
    (hmysub.map pairKey).nodup hpn
  have hbids : (my.map Pick.bowl_id).Nodup := by
    have heq : my.map Pick.bowl_id = (my.map pairKey).map Prod.snd := by
      rw [List.map_map]; rfl
    rw [heq]
    refine hpairs.map_on ?_
    intro x hx y hy hxy
    rcases List.mem_map.mp hx with ⟨px, hpx, hpxeq⟩
    rcases List.mem_map.mp hy with ⟨py, hpy, hpyeq⟩
    rw [← hpxeq, ← hpyeq]
    rw [← hpxeq, ← hpyeq] at hxy
    simp only [pairKey] at hxy ⊢
    rw [hmypid px hpx, hmypid py hpy]
    rw [hxy]
  have hsub : ∀ x ∈ my.map Pick.bowl_id, x ∈ bowls.map Bowl.id := by
    intro x hx
    rcases List.mem_map.mp hx with ⟨p, hp, hpeq⟩
    have hpicks : p ∈ picks := hmysub.mem hp
    rcases List.any_eq_true.mp (hpv p hpicks) with ⟨b, hb, hbid⟩
    exact List.mem_map.mpr ⟨b, hb, by rw [beq_iff_eq.mp hbid, hpeq]⟩
  have hcov : (bowls.all (fun b => picks.any
      (fun p => p.participant_id == pid && p.bowl_id == b.id)) = true)
      ↔ ∀ x ∈ bowls.map Bowl.id, x ∈ my.map Pick.bowl_id := by
    rw [List.all_eq_true]
    constructor
    · intro h x hx
      rcases List.mem_map.mp hx with ⟨b, hb, hbeq⟩
      rcases List.any_eq_true.mp (h b hb) with ⟨p, hp, hpeq⟩
      rw [Bool.and_eq_true] at hpeq
      obtain ⟨h1, h2⟩ := hpeq
      refine List.mem_map.mpr ⟨p, ?_, by rw [beq_iff_eq.mp h2, hbeq]⟩
      rw [hmy]
      exact List.mem_filter.mpr ⟨hp, h1⟩
    · intro h b hb
      have hx : b.id ∈ my.map Pick.bowl_id :=
        h b.id (List.mem_map.mpr ⟨b, hb, rfl⟩)
      rcases List.mem_map.mp hx with ⟨p, hp, hpeq⟩
      refine List.any_eq_true.mpr ⟨p, hmysub.mem hp, ?_⟩
      rw [Bool.and_eq_true]
      exact ⟨beq_iff_eq.mpr (hmypid p hp), beq_iff_eq.mpr hpeq⟩
  rw [beq_iff_eq]
  have hlen1 : my.length = (my.map Pick.bowl_id).length := (List.length_map _ _).symm
  have hlen2 : bowls.length = (bowls.map Bowl.id).length := (List.length_map _ _).symm
  rw [hlen1, hlen2, hcov]
  exact nodup_subset_length_iff hbids hbn hsub

/-- An active participant for the empty-store instance. -/
def exAlice : Participant :=
  { id := 1, name := "Alice", nickname := none, email := none,
    is_admin := false, is_active := true }

/-- A state with an empty contest store and one active participant. -/
def exSt9 : PoolState :=
  { bowls := [], participants := [exAlice],
    picks := [], round_status := [], override_datetime := none }

/-- C9 counterexample: on an empty contest store, `clear_picks` succeeds and
sets the participant's active flag to false although the participant
vacuously holds a pick for every contest, so the flag is not true exactly
when the pick set is complete. -/
theorem clear_picks_empty_store_cex :
    (clear_picks exSt9 0 1).2 = ApiResult.ok
    ∧ coversAll (clear_picks exSt9 0 1).1 1 = true
    ∧ ¬(((clear_picks exSt9 0 1).1.participants.all Participant.is_active) = true
        ↔ coversAll (clear_picks exSt9 0 1).1 1 = true) := by
  refine ⟨by decide, by decide, by decide⟩

/-- C9 amended: after a successful pick write on a well-formed store, the
participant's active flag is: for the single-pick save, true exactly when
they hold a pick for every contest; for the bulk clear, always false (and
whenever at least one contest exists this again coincides with holding a
pick for every contest, the participant then holding none); for the bulk
randomize-fill, always true, every missing pick having been filled. -/
theorem pick_writes_active_flag (st : PoolState) (wall : Int) (pid : Nat)
    (hwf : WF st) :
    (∀ (bid? : Option Nat) (tm? : Option Team) (st' : PoolState),
        save_pick st wall pid bid? tm? = (st', ApiResult.ok) →
        ∀ q ∈ st'.participants, q.id = pid →
          (q.is_active = true ↔ coversAll st' pid = true))
    ∧ (∀ st' : PoolState, clear_picks st wall pid = (st', ApiResult.ok) →
        (∀ q ∈ st'.participants, q.id = pid → q.is_active = false)
        ∧ (st.bowls ≠ [] → coversAll st' pid = false))
    ∧ (∀ (choice : Nat → Team) (st' : PoolState),
        randomize_picks st wall pid choice = (st', ApiResult.ok) →
        (∀ q ∈ st'.participants, q.id = pid → q.is_active = true)
        ∧ coversAll st' pid = true) := by
  refine ⟨?_, ?_, ?_⟩
  · -- save_pick
    intro bid? tm? st' hs
    cases hl : picks_are_locked st.bowls st.override_datetime wall
    case true =>
      cases bid? <;> cases tm? <;> simp [save_pick, hl] at hs
    case false =>
      cases bid? with
      | none => simp [save_pick, hl] at hs
      | some bid =>
        cases tm? with
        | none => simp [save_pick, hl] at hs
        | some tm =>
          cases hex : st.bowls.any (fun b => b.id == bid)
          case false => simp [save_pick, hl, hex] at hs
          case true =>
            simp only [save_pick, hl, Bool.false_eq_true, if_false, hex, if_true,
              Prod.mk.injEq, and_true] at hs
            subst hs
            intro q hq hqid
            set picks' :=
              (if st.picks.any (fun p => p.participant_id == pid && p.bowl_id == bid)
               then updatePickTeam st.picks pid bid tm
               else st.picks ++ [{ participant_id := pid, bowl_id := bid,
                                   picked_team := tm }]) with hpicks'
            have hflag := setActive_is_active q hq hqid
            rw [hflag]
            have hpn' : (picks'.map pairKey).Nodup := by
              rw [hpicks']
              cases hdup : st.picks.any
                  (fun p => p.participant_id == pid && p.bowl_id == bid)
              · rw [if_neg (by simp [hdup])]
                rw [List.map_append]
                rw [List.nodup_append]
                refine ⟨hwf.picks_nodup, by simp [pairKey], ?_⟩
                intro x hx hx'
                simp only [List.map_cons, List.map_nil, List.mem_singleton] at hx'
                rcases List.mem_map.mp hx with ⟨p, hp, hpeq⟩
                have := List.any_eq_false.mp hdup p hp
                rw [← hpeq] at hx'
                simp only [pairKey, Prod.mk.injEq] at hx'
                rw [Bool.and_eq_true, beq_iff_eq, beq_iff_eq] at this
                exact this ⟨hx'.1, hx'.2⟩
              · rw [if_pos (by simp [hdup])]
                rw [updatePickTeam_map_pairKey]
                exact hwf.picks_nodup
            have hpv' : ∀ p ∈ picks', st.bowls.any (fun b => b.id == p.bowl_id) = true := by
              intro p hp
              rw [hpicks'] at hp
              cases hdup : st.picks.any
                  (fun p => p.participant_id == pid && p.bowl_id == bid)
              · rw [if_neg (by simp [hdup])] at hp
                rcases List.mem_append.mp hp with hold | hnew
                · exact hwf.picks_valid p hold
                · simp only [List.mem_singleton] at hnew
                  rw [hnew]
                  exact hex
              · rw [if_pos (by simp [hdup])] at hp
                have hkey := mem_updatePickTeam_pairKey hp
                rcases List.mem_map.mp hkey with ⟨p0, hp0, hp0eq⟩
                have hbid : p0.bowl_id = p.bowl_id := congrArg Prod.snd hp0eq
                rw [← hbid]
                exact hwf.picks_valid p0 hp0
            exact count_eq_iff_covers hwf.bowls_nodup hpn' hpv'
  · -- clear_picks
    intro st' hc
    cases hl : picks_are_locked st.bowls st.override_datetime wall
    case true => simp [clear_picks, hl] at hc
    case false =>
      simp only [clear_picks, hl, Bool.false_eq_true, if_false,
        Prod.mk.injEq, and_true] at hc
      subst hc
      constructor
      · intro q hq hqid
        exact setActive_is_active q hq hqid
      · intro hne
        obtain ⟨b, hb⟩ := List.exists_mem_of_ne_nil st.bowls hne
        rw [Bool.eq_false_iff]
        intro hall
        rw [coversAll, List.all_eq_true] at hall
        have := hall b hb
        rcases List.any_eq_true.mp this with ⟨p, hp, hpred⟩
        have hfilt := (List.mem_filter.mp hp).2
        rw [Bool.and_eq_true] at hpred
        rw [hpred.1] at hfilt
        exact Bool.noConfusion hfilt
  · -- randomize_picks
    intro choice st' hr
    cases hl : picks_are_locked st.bowls st.override_datetime wall
    case true => simp [randomize_picks, hl] at hr
    case false =>
      simp only [randomize_picks, hl, Bool.false_eq_true, if_false,
        Prod.mk.injEq, and_true] at hr
      subst hr
      constructor
      · intro q hq hqid
        exact setActive_is_active q hq hqid
      · rw [coversAll, List.all_eq_true]
        intro b hb
        rw [List.any_append]
        cases hbp : st.picks.any (fun p => p.participant_id == pid && p.bowl_id == b.id)
        · rw [Bool.or_eq_true]
          right
          refine List.any_eq_true.mpr ⟨Pick.mk pid b.id (choice b.id), ?_, by simp⟩
          refine List.mem_map.mpr ⟨b, ?_, rfl⟩
          refine List.mem_filter.mpr ⟨hb, ?_⟩
          rw [hbp]
          rfl
        · rfl

/-- An unlocked state (wall clock 50, kickoff 100) with no picks. -/
def exStOpen : PoolState :=
  { bowls := [exBowlA], participants := exParts, picks := [],
    round_status := [], override_datetime := none }

theorem pick_writes_active_flag_witness :
    (∀ q ∈ (randomize_picks exStOpen 50 1 (fun _ => Team.favored)).1.participants,
        q.id = 1 → q.is_active = true)
    ∧ coversAll (randomize_picks exStOpen 50 1 (fun _ => Team.favored)).1 1 = true := by
  have h2 : (randomize_picks exStOpen 50 1 (fun _ => Team.favored)).2
      = ApiResult.ok := by decide
  have heq : randomize_picks exStOpen 50 1 (fun _ => Team.favored)
      = ((randomize_picks exStOpen 50 1 (fun _ => Team.favored)).1, ApiResult.ok) := by
    rw [← h2]
  exact (pick_writes_active_flag exStOpen 50 1 ⟨by decide, by decide, by decide⟩).2.2
    (fun _ => Team.favored) _ heq

/-- Python whitespace as used by `str.strip()` on team names. -/
def isSpaceChar (c : Char) : Bool :=
  c == ' ' || c == '\t' || c == '\n' || c == '\r'

/-- `str.strip()`: drop whitespace from both ends. -/
def trimChars (l : List Char) : List Char :=
  ((l.dropWhile isSpaceChar).reverse.dropWhile isSpaceChar).reverse

/-- Fuel-indexed worker for `str.replace(pat, '')`: scan left to right,
delete each non-overlapping occurrence of `pat`.  The fuel (initially the
input length) only ensures structural termination; every step consumes at
least one character. -/
def removeAllAux (pat : List Char) : Nat → List Char → List Char
  | _, [] => []
  | 0, l => l
  | fuel + 1, c :: rest =>
    if !pat.isEmpty && pat.isPrefixOf (c :: rest) then
      removeAllAux pat fuel ((c :: rest).drop pat.length)
    else c :: removeAllAux pat fuel rest

/-- `s.replace(pat, '')` of Python: delete all occurrences of `pat`. -/
def removeAll (pat s : List Char) : List Char :=
  removeAllAux pat s.length s

/-- Python's substring test `a in b`. -/
def containsSub (a : List Char) : List Char → Bool
  | [] => a.isEmpty
  | c :: rest => a.isPrefixOf (c :: rest) || containsSub a rest

/-- `ScoreUpdater._normalize_team_name` (`score_updater.py` lines 190-198):
lowercase, remove ' football', 'university', 'college', strip whitespace. -/
def normalize_team_name (name : String) : List Char :=
  trimChars (removeAll "college".data (removeAll "university".data
    (removeAll " football".data (name.data.map Char.toLower))))

/-- `ScoreUpdater._teams_match` (`score_updater.py` lines 174-188):
normalized equality, or containment of one normalized name in the other. -/
def teams_match (espn_name bowl_name : String) : Bool :=
  let e := normalize_team_name espn_name
  let b := normalize_team_name bowl_name
  e == b || containsSub e b || containsSub b e

/-- One competitor entry of an ESPN event: team display name and optional
numeric score (`score_updater.py` lines 114-119; a score string that parses
to an integer is modelled as `some`). -/
structure Competitor where
  displayName : String
  score : Option Int
deriving DecidableEq, Repr

/-- One competition of an ESPN event: competitor list and the status type
name string (`competition['status']['type']['name']`). -/
structure Competition where
  competitors : List Competitor
  statusName : String
deriving DecidableEq, Repr

/-- One ESPN scoreboard event (`data['events']` entry). -/
structure Event where
  competitions : List Competition
deriving DecidableEq, Repr

/-- `ScoreUpdater._map_espn_status` (`score_updater.py` lines 200-213):
case-insensitive keyword containment, unrecognized mapping to not_started.
The status string is lowercased on extraction (`line 108`) and again here;
a single lowering is equivalent. -/
def map_espn_status (espn_status : String) : Status :=
  let s := espn_status.data.map Char.toLower
  if containsSub "final".data s || containsSub "complete".data s then Status.final
  else if containsSub "progress".data s || containsSub "live".data s then Status.in_progress
  else if containsSub "scheduled".data s || containsSub "pre".data s then Status.not_started
  else if containsSub "cancel".data s || containsSub "postpone".data s then Status.canceled
  else Status.not_started

/-- The per-event acceptance test of `ScoreUpdater._find_matching_game`
(`score_updater.py` lines 148-170): exactly one competition, exactly two
competitors, and each of the bowl's two team names resolves to one of the
event's team slots. -/
def event_matches (bowl : Bowl) (g : Event) : Bool :=
  match g.competitions with
  | [] => false
  | comp :: _ =>
    match comp.competitors with
    | [c1, c2] =>
      (teams_match c1.displayName bowl.favored_team
        || teams_match c2.displayName bowl.favored_team)
      && (teams_match c1.displayName bowl.opponent
        || teams_match c2.displayName bowl.opponent)
    | _ => false

/-- `ScoreUpdater._find_matching_game` (`score_updater.py` lines 146-172):
first fetched event accepted by the matcher, else `none`. -/
def find_matching_game (bowl : Bowl) : List Event → Option Event
  | [] => none
  | g :: rest =>
    if event_matches bowl g then some g else find_matching_game bowl rest

/-- Python dict insertion with key overwrite, for the `team_scores` dict of
`score_updater.py` lines 114-119. -/
def insertTeamScore (acc : List (String × Int)) (name : String) (score : Int) :
    List (String × Int) :=
  if acc.any (fun q => q.1 == name) then
    acc.map (fun q => if q.1 == name then (q.1, score) else q)
  else acc ++ [(name, score)]

/-- The `team_scores` dict built from the competitors with a present score
(`score_updater.py` lines 114-119). -/
def buildTeamScores (competitors : List Competitor) : List (String × Int) :=
  competitors.foldl (fun acc c =>
    match c.score with
    | some s => insertTeamScore acc c.displayName s
    | none => acc) []

/-- The favored/opponent score resolution loop of `score_updater.py` lines
121-130 (`if _teams_match(name, favored): ... elif _teams_match(name,
opponent): ...`). -/
def resolveScores (bowl : Bowl) (ts : List (String × Int)) :
    Option Int × Option Int :=
  ts.foldl (fun acc q =>
    if teams_match q.1 bowl.favored_team then (some q.2, acc.2)
    else if teams_match q.1 bowl.opponent then (acc.1, some q.2)
    else acc) (none, none)

/-- `ScoreUpdater._update_bowl_from_espn` (`score_updater.py` lines 85-144):
find a matching event, extract status and both team scores, and commit all
three fields only when both scores resolved; returns the (possibly updated)
bowl and whether it was updated. -/
def update_bowl_from_espn (bowl : Bowl) (espn_games : List Event) : Bowl × Bool :=
  match find_matching_game bowl espn_games with
  | none => (bowl, false)
  | some g =>
    match g.competitions with
    | [] => (bowl, false)
    | comp :: _ =>
      match comp.competitors with
      | [c1, c2] =>
        let new_status := map_espn_status comp.statusName
        match resolveScores bowl (buildTeamScores [c1, c2]) with
        | (some favored_score, some opponent_score) =>
          ({ bowl with favored_team_score := some favored_score,
                       opponent_score := some opponent_score,
                       status := new_status }, true)
        | _ => (bowl, false)
      | _ => (bowl, false)

/-- The fully-resolved-match computation of `_update_bowl_from_espn`: the
triple (favored score, opponent score, mapped status) when the matched
event yields both team scores, `none` otherwise. -/
def resolvedMatch (bowl : Bowl) (espn_games : List Event) :
    Option (Int × Int × Status) :=
  match find_matching_game bowl espn_games with
  | none => none
  | some g =>
    match g.competitions with
    | [] => none
    | comp :: _ =>
      match comp.competitors with
      | [c1, c2] =>
        match resolveScores bowl (buildTeamScores [c1, c2]) with
        | (some favored_score, some opponent_score) =>
          some (favored_score, opponent_score, map_espn_status comp.statusName)
        | _ => none
      | _ => none

/-- The per-bowl body of `ScoreUpdater.update_scores` (`score_updater.py`
lines 47-49): only bowls with status not_started or in_progress are
candidates. -/
def sync_one (espn_games : List Event) (b : Bowl) : Bowl :=
  if b.status = Status.not_started ∨ b.status = Status.in_progress then
    (update_bowl_from_espn b espn_games).1
  else b

/-- `ScoreUpdater.update_scores` (`score_updater.py` lines 21-56) as a
function of the contest store and the fetched payload: an empty payload
aborts without mutation (line 41), otherwise each candidate bowl is
reconciled independently. -/
def update_scores (bowls : List Bowl) (espn_games : List Event) : List Bowl :=
  if espn_games.isEmpty then bowls
  else bowls.map (sync_one espn_games)

lemma update_bowl_from_espn_eq (b : Bowl) (games : List Event) :
    update_bowl_from_espn b games =
      match resolvedMatch b games with
      | none => (b, false)
      | some (fs, os, ns) =>
        ({ b with favored_team_score := some fs, opponent_score := some os,
                  status := ns }, true) := by
  unfold update_bowl_from_espn resolvedMatch
  cases find_matching_game b games with
  | none => rfl
  | some g =>
    dsimp only
    cases g.competitions with
    | nil => rfl
    | cons comp crest =>
      dsimp only
      cases comp.competitors with
      | nil => rfl
      | cons c1 cs =>
        cases cs with
        | nil => rfl
        | cons c2 cs2 =>
          cases cs2 with
          | cons c3 cs3 => rfl
          | nil =>
            dsimp only
            cases hrs : resolveScores b (buildTeamScores [c1, c2]) with
            | mk fo oo =>
              cases fo <;> cases oo <;> rfl

/-- C7: per candidate contest, the sync either writes favoredScore,
opponentScore and status together — exactly when both team scores were
resolved from the matched event — or leaves the contest untouched; no
partial write exists. -/
theorem update_bowl_all_or_nothing (b : Bowl) (games : List Event) :
    (resolvedMatch b games = none → update_bowl_from_espn b games = (b, false))
    ∧ (∀ fs os ns, resolvedMatch b games = some (fs, os, ns) →
        update_bowl_from_espn b games =
          ({ b with favored_team_score := some fs, opponent_score := some os,
                    status := ns }, true)) := by
  constructor
  · intro h
    rw [update_bowl_from_espn_eq, h]
  · intro fs os ns h
    rw [update_bowl_from_espn_eq, h]

/-- A candidate bowl for the sync instances. -/
def exBowlSync : Bowl :=
  { id := 3, name := "Rose Bowl", datetime_utc := 100,
    favored_team := "Ohio State", opponent := "Michigan",
    spread := -3, favored_team_score := none, opponent_score := none,
    status := Status.in_progress, is_ignored := false, round := "first_round" }

/-- ESPN competitor entries for the sync instances. -/
def exCompetitor1 : Competitor :=
  { displayName := "Ohio State Buckeyes", score := some 24 }

def exCompetitor2 : Competitor :=
  { displayName := "Michigan Wolverines", score := some 17 }

def exCompetition : Competition :=
  { competitors := [exCompetitor1, exCompetitor2], statusName := "STATUS_FINAL" }

def exEvent : Event :=
  { competitions := [exCompetition] }

theorem update_bowl_all_or_nothing_witness :
    update_bowl_from_espn exBowlSync [exEvent]
      = ({ exBowlSync with favored_team_score := some 24,
                           opponent_score := some 17,
                           status := Status.final }, true) :=
  (update_bowl_all_or_nothing exBowlSync [exEvent]).2 24 17 Status.final (by decide)

lemma event_matches_congr (b₁ b₂ : Bowl) (h1 : b₁.favored_team = b₂.favored_team)
    (h2 : b₁.opponent = b₂.opponent) (g : Event) :
    event_matches b₁ g = event_matches b₂ g := by
  unfold event_matches
  simp only [h1, h2]

lemma find_matching_game_congr (b₁ b₂ : Bowl) (h1 : b₁.favored_team = b₂.favored_team)
    (h2 : b₁.opponent = b₂.opponent) :
    ∀ games, find_matching_game b₁ games = find_matching_game b₂ games := by
  intro games
  induction games with
  | nil => rfl
  | cons g rest ih =>
    simp only [find_matching_game]
    rw [event_matches_congr b₁ b₂ h1 h2, ih]

lemma resolveScores_congr (b₁ b₂ : Bowl) (h1 : b₁.favored_team = b₂.favored_team)
    (h2 : b₁.opponent = b₂.opponent) (ts : List (String × Int)) :
    resolveScores b₁ ts = resolveScores b₂ ts := by
  unfold resolveScores
  simp only [h1, h2]

lemma resolvedMatch_congr (b₁ b₂ : Bowl) (h1 : b₁.favored_team = b₂.favored_team)
    (h2 : b₁.opponent = b₂.opponent) (games : List Event) :
    resolvedMatch b₁ games = resolvedMatch b₂ games := by
  unfold resolvedMatch
  rw [find_matching_game_congr b₁ b₂ h1 h2]
  cases find_matching_game b₂ games with
  | none => rfl
  | some g =>
    dsimp only
    cases g.competitions with
    | nil => rfl
    | cons comp crest =>
      dsimp only
      cases comp.competitors with
      | nil => rfl
      | cons c1 cs =>
        cases cs with
        | nil => rfl
        | cons c2 cs2 =>
          cases cs2 with
          | cons c3 cs3 => rfl
          | nil =>
            dsimp only
            rw [resolveScores_congr b₁ b₂ h1 h2]

lemma sync_one_fixed (games : List Event) (b : Bowl) :
    sync_one games (sync_one games b) = sync_one games b := by
  unfold sync_one
  by_cases ha : b.status = Status.not_started ∨ b.status = Status.in_progress
  · rw [if_pos ha]
    cases hm : resolvedMatch b games with
    | none =>
      have hid : (update_bowl_from_espn b games).1 = b := by
        rw [update_bowl_from_espn_eq, hm]
      rw [hid, if_pos ha, hid]
    | some t =>
      obtain ⟨fs, os, ns⟩ := t
      have hb1 : (update_bowl_from_espn b games).1
          = { b with favored_team_score := some fs, opponent_score := some os,
                     status := ns } := by
        rw [update_bowl_from_espn_eq, hm]
      rw [hb1]
      set b1 : Bowl := { b with favored_team_score := some fs,
                                opponent_score := some os,
                                status := ns } with hb1e
      by_cases ha1 : b1.status = Status.not_started ∨ b1.status = Status.in_progress
      · rw [if_pos ha1]
        have hfav : b1.favored_team = b.favored_team := by rw [hb1e]
        have hopp : b1.opponent = b.opponent := by rw [hb1e]
        have hm1 : resolvedMatch b1 games = some (fs, os, ns) := by
          rw [resolvedMatch_congr b1 b hfav hopp games]
          exact hm
        rw [update_bowl_from_espn_eq, hm1]
      · rw [if_neg ha1]
  · rw [if_neg ha, if_neg ha]

/-- C8: re-running the sync against an unchanged external payload leaves the
contest store exactly as after the first run — the second invocation
mutates nothing (finished bowls are no longer candidates, and a candidate
re-matched against the same payload is rewritten to its current values). -/
theorem update_scores_idempotent (bowls : List Bowl) (games : List Event) :
    update_scores (update_scores bowls games) games = update_scores bowls games := by
  cases hg : games.isEmpty
  · unfold update_scores
    rw [hg]
    simp only [Bool.false_eq_true, if_false]
    rw [List.map_map]
    exact List.map_congr_left (fun b _ => sync_one_fixed games b)
  · unfold update_scores
    rw [hg]
    simp

lemma event_matches_true {b : Bowl} {g : Event} (h : event_matches b g = true) :
    ∃ comp crest c1 c2, g.competitions = comp :: crest ∧ comp.competitors = [c1, c2]
      ∧ (teams_match c1.displayName b.favored_team = true
         ∨ teams_match c2.displayName b.favored_team = true)
      ∧ (teams_match c1.displayName b.opponent = true
         ∨ teams_match c2.displayName b.opponent = true) := by
  unfold event_matches at h
  cases hc : g.competitions with
  | nil =>
    rw [hc] at h
    exact absurd h (by simp)
  | cons comp crest =>
    rw [hc] at h
    dsimp only at h
    cases hcs : comp.competitors with
    | nil =>
      rw [hcs] at h
      exact absurd h (by simp)
    | cons c1 cs =>
      cases cs with
      | nil =>
        rw [hcs] at h
        dsimp only at h
        exact absurd h (by simp)
      | cons c2 cs2 =>
        cases cs2 with
        | cons c3 cs3 =>
          rw [hcs] at h
          dsimp only at h
          exact absurd h (by simp)
        | nil =>
          rw [hcs] at h
          dsimp only at h
          rw [Bool.and_eq_true, Bool.or_eq_true, Bool.or_eq_true] at h
          exact ⟨comp, crest, c1, c2, rfl, hcs, h.1, h.2⟩

/-- C6: the matcher accepts an event only when the event has exactly two
team slots and each of the contest's two names (favored and opponent)
resolves, under normalization, to one of them; a one-sided match is never
returned.  Resolution (`teams_match`) is normalized equality or containment
either way. -/
theorem find_matching_game_sound (b : Bowl) (games : List Event) (g : Event)
    (h : find_matching_game b games = some g) :
    g ∈ games ∧ event_matches b g = true
    ∧ ∃ comp crest c1 c2,
        g.competitions = comp :: crest ∧ comp.competitors = [c1, c2]
        ∧ (teams_match c1.displayName b.favored_team = true
           ∨ teams_match c2.displayName b.favored_team = true)
        ∧ (teams_match c1.displayName b.opponent = true
           ∨ teams_match c2.displayName b.opponent = true) := by
  induction games with
  | nil => exact absurd h (by simp [find_matching_game])
  | cons g0 rest ih =>
    rw [find_matching_game] at h
    by_cases hm : event_matches b g0 = true
    · rw [if_pos hm] at h
      cases h
      exact ⟨List.mem_cons_self _ _, hm, event_matches_true hm⟩
    · rw [if_neg hm] at h
      obtain ⟨h1, h2, h3⟩ := ih h
      exact ⟨List.mem_cons_of_mem _ h1, h2, h3⟩

theorem find_matching_game_sound_witness :
    exEvent ∈ [exEvent] ∧ event_matches exBowlSync exEvent = true :=
  ⟨(find_matching_game_sound exBowlSync [exEvent] exEvent (by decide)).1,
   (find_matching_game_sound exBowlSync [exEvent] exEvent (by decide)).2.1⟩
